import Mathlib

/-!
Verification of the car-parts classification app (`src/app.py`).

The Python source is shallowly embedded below.  Pure fragments (the label
set, the description table, preprocessing arithmetic, arg-max selection,
webcam probing) become Lean functions over `Nat`/`ℚ`/`List`.  The stateful
fragments (the cached model loader, the webcam loop with its `try/finally`)
become explicit state-passing functions; external effects (network success,
deserialization success, camera availability, the frame stream, user
stop requests) are parameters.  External library routines (`np.argmax`,
`tf.image.resize`, `st.cache_resource`) are modelled from their documented
semantics, which is the contract the source relies on.

The file is organised as: definitions (the embedding), then lemmas and
theorems about them.
-/

namespace CarParts

/-! ## Definitions -/

/-- The label set from `app.py` lines 30–42 (`class_names`), in source order. -/
def class_names : List String := [
  "AIR COMPRESSOR", "ALTERNATOR", "BATTERY", "BRAKE CALIPER", "BRAKE PAD",
  "BRAKE ROTOR", "CAMSHAFT", "CARBERATOR", "CLUTCH PLATE", "COIL SPRING",
  "CRANKSHAFT", "CYLINDER HEAD", "DISTRIBUTOR", "ENGINE BLOCK", "ENGINE VALVE",
  "FUEL INJECTOR", "FUSE BOX", "GAS CAP", "HEADLIGHTS", "IDLER ARM",
  "IGNITION COIL", "INSTRUMENT CLUSTER", "LEAF SPRING", "LOWER CONTROL ARM",
  "MUFFLER", "OIL FILTER", "OIL PAN", "OIL PRESSURE SENSOR", "OVERFLOW TANK",
  "OXYGEN SENSOR", "PISTON", "PRESSURE PLATE", "RADIATOR", "RADIATOR FAN",
  "RADIATOR HOSE", "RADIO", "RIM", "SHIFT KNOB", "SIDE MIRROR", "SPARK PLUG",
  "SPOILER", "STARTER", "TAILLIGHTS", "THERMOSTAT", "TORQUE CONVERTER",
  "TRANSMISSION", "VACUUM BRAKE BOOSTER", "VALVE LIFTER", "WATER PUMP",
  "WINDOW REGULATOR"]

/-- The class description table from `app.py` lines 44–47 (`class_info`),
as an association list in source order. -/
def class_info : List (String × String) := [
  ("Ignition Coil", "Description of Ignition Coil."),
  ("Leaf Spring", "Description of Leaf Spring.")]

/-- Python `dict.get(key, fallback)` on an association list. -/
def dict_get (tbl : List (String × String)) (key fallback : String) : String :=
  match tbl.lookup key with
  | some v => v
  | none => fallback

/-- The description lookup performed at `app.py` line 101:
`class_info.get(class_name, "No description available.")`. -/
def describe (class_name : String) : String :=
  dict_get class_info class_name "No description available."

/-! ### Preprocessor (`app.py` lines 49–53)

`preprocess_image` converts BGR to RGB, resizes to 224×224 with
`tf.image.resize` (bilinear, half-pixel centers — modelled from the
documented TensorFlow kernel), divides by 255.0, and adds a batch
dimension.  An input image is a list of rows of integer pixel triples
(values 0–255); the output tensor is a 4-level nested list, so its shape
is the lengths of the nesting levels. -/

/-- An input image: rows of pixels, each pixel an integer channel triple. -/
abbrev RawImage := List (List (Nat × Nat × Nat))

/-- A 4-dimensional tensor (batch, height, width, channels). -/
abbrev Tensor := List (List (List (List ℚ)))

/-- Every channel value of every pixel is at most 255. -/
def boundedImage (img : RawImage) : Prop :=
  ∀ row ∈ img, ∀ p ∈ row, p.1 ≤ 255 ∧ p.2.1 ≤ 255 ∧ p.2.2 ≤ 255

/-- A valid input image: non-empty, rectangular, channel values 0–255
(3 colour channels and integrality are structural in `RawImage`). -/
def validImage (img : RawImage) : Prop :=
  0 < img.length ∧ 0 < (img.getD 0 []).length ∧
  (∀ row ∈ img, row.length = (img.getD 0 []).length) ∧
  boundedImage img

/-- Embeds `cv2.cvtColor(img, cv2.COLOR_BGR2RGB)`: reverse the channel order of
every pixel. -/
def cvtColor_BGR2RGB (img : RawImage) : RawImage :=
  img.map (fun row => row.map (fun p => (p.2.2, p.2.1, p.1)))

/-- Pixel access with the out-of-range default (0, 0, 0). -/
def pixAt (img : RawImage) (y x : Nat) : Nat × Nat × Nat :=
  (img.getD y []).getD x (0, 0, 0)

/-- Source coordinate sampled by `tf.image.resize` for output index `i`
(half-pixel centers, output size 224). -/
def srcCoord (inSize i : Nat) : ℚ :=
  (i + 1 / 2) * ((inSize : ℚ) / 224) - 1 / 2

/-- Lower source index used by bilinear interpolation (clamped at 0). -/
def interpLow (inSize i : Nat) : Nat :=
  (max ⌊srcCoord inSize i⌋ 0).toNat

/-- Upper source index used by bilinear interpolation (clamped at
`inSize - 1`). -/
def interpHigh (inSize i : Nat) : Nat :=
  (min ⌈srcCoord inSize i⌉ ((inSize : ℤ) - 1)).toNat

/-- Interpolation weight: the sampled coordinate minus its floor. -/
def interpT (inSize i : Nat) : ℚ :=
  srcCoord inSize i - ⌊srcCoord inSize i⌋

/-- Linear interpolation `a + (b - a) * t`, as in the TensorFlow kernel. -/
def lerp (t a b : ℚ) : ℚ := a + (b - a) * t

/-- Channel-wise linear interpolation of two pixels. -/
def lerp3 (t : ℚ) (a b : ℚ × ℚ × ℚ) : ℚ × ℚ × ℚ :=
  (lerp t a.1 b.1, lerp t a.2.1 b.2.1, lerp t a.2.2 b.2.2)

/-- The channels of a pixel as rationals. -/
def toQ3 (p : Nat × Nat × Nat) : ℚ × ℚ × ℚ := (p.1, p.2.1, p.2.2)

/-- One output pixel of bilinear `tf.image.resize` on an image of height
`h` and width `w`: interpolate horizontally on the two source rows, then
vertically. -/
def resizePixel (img : RawImage) (h w i j : Nat) : ℚ × ℚ × ℚ :=
  let y0 := interpLow h i
  let y1 := interpHigh h i
  let ty := interpT h i
  let x0 := interpLow w j
  let x1 := interpHigh w j
  let tx := interpT w j
  let top := lerp3 tx (toQ3 (pixAt img y0 x0)) (toQ3 (pixAt img y0 x1))
  let bot := lerp3 tx (toQ3 (pixAt img y1 x0)) (toQ3 (pixAt img y1 x1))
  lerp3 ty top bot

/-- Embeds `preprocess_image` from `app.py` lines 49–53: BGR→RGB, bilinear resize
to 224×224, division by 255.0, and `np.expand_dims(img, axis=0)`. -/
def preprocess_image (img : RawImage) : Tensor :=
  let rgb := cvtColor_BGR2RGB img
  let h := rgb.length
  let w := (rgb.getD 0 []).length
  [(List.range 224).map (fun i =>
    (List.range 224).map (fun j =>
      let p := resizePixel rgb h w i j
      [p.1 / 255, p.2.1 / 255, p.2.2 / 255]))]

/-! ### Predictor (`app.py` lines 55–59)

`predict(model, img)` calls `model.predict(img)`, takes row 0 of the
batched output, selects `np.argmax`, and returns the triple
`(class_names[idx], prediction[0][idx], prediction[0])`.  The classifier
is opaque: any function from an input tensor to a batch of distributions.
`np.argmax` is modelled from its documented semantics: the index of the
first occurrence of the maximum value. -/

/-- The result triple of `predict`: `(class_name, confidence, prediction[0])`. -/
structure Prediction where
  class_name : String
  confidence : ℚ
  distribution : List ℚ

/-- Maximum of a list of rationals (0 for the empty list, which
`np.argmax` rejects anyway). -/
def listMax : List ℚ → ℚ
  | [] => 0
  | x :: xs => xs.foldl max x

/-- Index of the first occurrence of `a` in `l` (`l.length` if absent). -/
def firstIdxOf (l : List ℚ) (a : ℚ) : Nat :=
  match l with
  | [] => 0
  | x :: xs => if x = a then 0 else firstIdxOf xs a + 1

/-- Embeds `np.argmax`, modelled from its documented semantics: the index of the
first occurrence of the maximum value. -/
def npArgmax (l : List ℚ) : Nat := firstIdxOf l (listMax l)

/-- Row 0 of the batched classifier output, `prediction[0]`. -/
def distOf (model : Tensor → List (List ℚ)) (img : Tensor) : List ℚ :=
  (model img).getD 0 []

/-- Embeds `predict` from `app.py` lines 55–59. -/
def predict (model : Tensor → List (List ℚ)) (img : Tensor) : Prediction :=
  let pred0 := (model img).getD 0 []
  let idx := npArgmax pred0
  ⟨class_names.getD idx "", pred0.getD idx 0, pred0⟩

/-! ### Model loader (`app.py` lines 15–28)

`load_model` is wrapped in `@st.cache_resource`, whose documented
semantics is a process-wide lazy cache: the first call runs the body and
stores its return value, later calls return the stored value.  The body
creates the `models` directory if absent, downloads the artifact if the
file is absent, then deserializes it; any exception is caught and `None`
is returned.  The filesystem, the cache and the work counters form an
explicit state; network and deserialization success are environment
flags.  A model handle is a `Nat` that is fresh per deserialization. -/

/-- External outcomes fixed for a process: whether `gdown.download`
succeeds, and whether `tf.keras.models.load_model` succeeds on the file. -/
structure LoaderEnv where
  downloadOk : Bool
  loadOk : Bool

/-- Process state seen by the loader: the `models` directory, the model
file, the `st.cache_resource` slot, and counters of performed downloads
and deserializations. -/
structure LoaderState where
  dirExists : Bool
  fileExists : Bool
  cache : Option (Option Nat)
  downloads : Nat
  loads : Nat

/-- Embeds `tf.keras.models.load_model(model_path)`: one deserialization
attempt; fails (raises, hence `none` after the `except`) if the file is
missing or the artifact is corrupt/incompatible (`loadOk = false`).
The returned handle is fresh per deserialization. -/
def tf_load (env : LoaderEnv) (s : LoaderState) : Option Nat × LoaderState :=
  let s2 := { s with loads := s.loads + 1 }
  if s.fileExists && env.loadOk then (some s2.loads, s2) else (none, s2)

/-- The body of `load_model` (the `try`/`except` block, `app.py`
lines 17–28): directory check, conditional download, deserialization;
exceptions become `none`. -/
def load_model_body (env : LoaderEnv) (s : LoaderState) : Option Nat × LoaderState :=
  let s1 := if s.dirExists then s else { s with dirExists := true }
  if s1.fileExists then
    tf_load env s1
  else
    let s2 := { s1 with downloads := s1.downloads + 1 }
    if env.downloadOk then
      tf_load env { s2 with fileExists := true }
    else
      (none, s2)

/-- Embeds `load_model` as seen by callers: the `@st.cache_resource` wrapper
(modelled from its documented lazy-singleton semantics) around
`load_model_body`. -/
def load_model (env : LoaderEnv) (s : LoaderState) : Option Nat × LoaderState :=
  match s.cache with
  | some v => (v, s)
  | none =>
    let r := load_model_body env s
    (r.1, { r.2 with cache := some r.1 })

/-- The outcome of a guard in `main`: either an error message is rendered
and `main` returns, or execution proceeds. -/
inductive MainOutcome where
  | errorHalt (msg : String)
  | proceeded
deriving DecidableEq

/-- The model guard at `app.py` lines 72–75: `if model is None:
st.error(...); return`. -/
def main_model_gate (m : Option Nat) : MainOutcome :=
  match m with
  | none => MainOutcome.errorHalt "Failed to load model. Please refresh the page."
  | some _ => MainOutcome.proceeded

/-! ### Webcam probing (`app.py` lines 61–66) and `main` branching

`get_webcam` tries device indices 0, 1, 2, 3 in order and returns the
first that opens, else `None`.  Which indices open is an environment
function.  The bound handle is modelled by its device index. -/

/-- The `for idx in range(4)` loop of `get_webcam`, probing `n` indices
starting at `idx`. -/
def open_webcam_from (opens : Nat → Bool) : Nat → Nat → Option Nat
  | _, 0 => none
  | idx, n + 1 => if opens idx then some idx else open_webcam_from opens (idx + 1) n

/-- Embeds `get_webcam` from `app.py` lines 61–66. -/
def get_webcam (opens : Nat → Bool) : Option Nat :=
  open_webcam_from opens 0 4

/-- The sidebar radio selection in `main` (`app.py` line 77). -/
inductive InputMethod where
  | uploadImage
  | webcam

/-- What one run of a `main` input branch produces. -/
inductive BranchResult where
  | noUpload
  | uploadShown (p : Prediction) (desc : String)
  | webcamError (msg : String)
  | webcamStarted (cam : Nat)

/-- The input-method branching of `main` (`app.py` lines 79–109): the
upload branch preprocesses and predicts on the uploaded file and renders
the prediction with its description; the webcam branch acquires a camera
via `get_webcam` and halts with an error if none opens. -/
def main_branch (opt : InputMethod) (opens : Nat → Bool)
    (model : Tensor → List (List ℚ)) (file : Option RawImage) : BranchResult :=
  match opt with
  | InputMethod.uploadImage =>
    match file with
    | none => BranchResult.noUpload
    | some img =>
      let p := predict model (preprocess_image img)
      BranchResult.uploadShown p (describe p.class_name)
  | InputMethod.webcam =>
    match get_webcam opens with
    | none => BranchResult.webcamError
        "No webcam found. Please ensure it\x27s connected and permissions are granted."
    | some cam => BranchResult.webcamStarted cam

/-! ### The continuous webcam loop (`app.py` lines 111–131)

`stop_button = st.button("Stop Webcam")` is evaluated once, before the
loop; the loop condition and the late `if stop_button: break` re-read
that same Python variable, which never changes inside the loop.  The
time-varying user stop requests are therefore modelled as a function
`userStop : Nat → Bool` of which the script samples only `userStop 0`.
Frames and inference failures are per-iteration environment functions.
The loop is fueled; running out of fuel means control is still inside
the `try` block (`LoopExit.running`), and `cap.release()` in the
`finally` runs exactly when control leaves the loop. -/

/-- How the webcam loop ends (or that it is still running at the fuel
bound). -/
inductive LoopExit where
  | stopped
  | exhausted
  | inferenceError
  | running
deriving DecidableEq

/-- The `while not stop_button` loop body (`app.py` lines 115–128):
read a frame (exhaustion breaks), preprocess and predict (an exception
aborts), display the frame, re-check the same `stop_button` value.
Returns the exit kind and the iterations whose frame was displayed. -/
def cam_loop (stopBtn : Bool) (frames : Nat → Option RawImage)
    (inferFails : Nat → Bool) : Nat → Nat → List Nat → LoopExit × List Nat
  | 0, _, shown => (LoopExit.running, shown)
  | fuel + 1, i, shown =>
    if stopBtn then (LoopExit.stopped, shown)
    else
      match frames i with
      | none => (LoopExit.exhausted, shown)
      | some _ =>
        if inferFails i then (LoopExit.inferenceError, shown)
        else
          let shown2 := shown ++ [i]
          if stopBtn then (LoopExit.stopped, shown2)
          else cam_loop stopBtn frames inferFails fuel (i + 1) shown2

/-- One run of the webcam session: exit kind, displayed frame
iterations, and whether `cap.release()` has run. -/
structure WebcamRun where
  exit : LoopExit
  displayed : List Nat
  released : Bool

/-- The `try`/`finally` around the loop (`app.py` lines 114–131): the
camera is released exactly when control leaves the loop, on every exit
kind including the exceptional one. -/
def run_webcam (fuel : Nat) (stopBtn : Bool) (frames : Nat → Option RawImage)
    (inferFails : Nat → Bool) : WebcamRun :=
  let r := cam_loop stopBtn frames inferFails fuel 0 []
  ⟨r.1, r.2, if r.1 = LoopExit.running then false else true⟩

/-! ### Concrete instances used by witnesses and counterexamples -/

/-- A stub classifier returning a fixed batch of one distribution. -/
def modelEx : Tensor → List (List ℚ) := fun _ => [[(1 : ℚ) / 4, 1 / 2, 1 / 4]]

/-- A 1×1 black image. -/
def imgEx : RawImage := [[(0, 0, 0)]]

/-- A user who issues the stop request at iteration 1 (after the loop
has started). -/
def userStopEx : Nat → Bool := fun i => decide (1 ≤ i)

/-- A camera that always delivers a frame. -/
def framesEx : Nat → Option RawImage := fun _ => some [[(0, 0, 0)]]

/-- A five-iteration run of the webcam session against `userStopEx`:
the script samples the stop flag once, before the loop. -/
def runEx : WebcamRun := run_webcam 5 (userStopEx 0) framesEx (fun _ => false)

/-- An environment where only camera index 2 opens. -/
def opensEx : Nat → Bool := fun i => decide (i = 2)

end CarParts

namespace CarParts

/-! ## Lemmas -/

lemma le_foldl_max (xs : List ℚ) (init : ℚ) : init ≤ xs.foldl max init := by
  induction xs generalizing init with
  | nil => exact le_refl init
  | cons y ys ih =>
    simp only [List.foldl_cons]
    exact le_trans (le_max_left init y) (ih (max init y))

lemma mem_le_foldl_max {v : ℚ} (xs : List ℚ) (init : ℚ) (hv : v ∈ xs) :
    v ≤ xs.foldl max init := by
  induction xs generalizing init with
  | nil => cases hv
  | cons y ys ih =>
    simp only [List.foldl_cons]
    rcases List.mem_cons.mp hv with rfl | h
    · exact le_trans (le_max_right init v) (le_foldl_max ys _)
    · exact ih _ h

lemma foldl_max_mem (xs : List ℚ) (init : ℚ) :
    xs.foldl max init = init ∨ xs.foldl max init ∈ xs := by
  induction xs generalizing init with
  | nil => exact Or.inl rfl
  | cons y ys ih =>
    simp only [List.foldl_cons]
    rcases ih (max init y) with h | h
    · rcases max_choice init y with hm | hm
      · exact Or.inl (by rw [h, hm])
      · exact Or.inr (by rw [h, hm]; exact List.mem_cons_self _ _)
    · exact Or.inr (List.mem_cons_of_mem _ h)

lemma listMax_mem (l : List ℚ) (h : l ≠ []) : listMax l ∈ l := by
  match l with
  | [] => exact absurd rfl h
  | x :: xs =>
    show xs.foldl max x ∈ x :: xs
    rcases foldl_max_mem xs x with h | h
    · rw [h]; exact List.mem_cons_self _ _
    · exact List.mem_cons_of_mem _ h

lemma le_listMax {v : ℚ} {l : List ℚ} (hv : v ∈ l) : v ≤ listMax l := by
  match l with
  | [] => cases hv
  | x :: xs =>
    show v ≤ xs.foldl max x
    rcases List.mem_cons.mp hv with rfl | h
    · exact le_foldl_max xs v
    · exact mem_le_foldl_max xs x h

lemma firstIdxOf_lt_length {l : List ℚ} {a : ℚ} (h : a ∈ l) :
    firstIdxOf l a < l.length := by
  induction l with
  | nil => cases h
  | cons x xs ih =>
    by_cases hx : x = a
    · simp [firstIdxOf, hx]
    · rcases List.mem_cons.mp h with rfl | hmem
      · exact absurd rfl hx
      · simpa [firstIdxOf, hx, Nat.succ_lt_succ_iff] using ih hmem

lemma getD_firstIdxOf {l : List ℚ} {a : ℚ} (h : a ∈ l) :
    l.getD (firstIdxOf l a) 0 = a := by
  induction l with
  | nil => cases h
  | cons x xs ih =>
    by_cases hx : x = a
    · simp [firstIdxOf, hx]
    · rcases List.mem_cons.mp h with rfl | hmem
      · exact absurd rfl hx
      · simpa [firstIdxOf, hx] using ih hmem

lemma getD_ne_of_lt_firstIdxOf {l : List ℚ} {a : ℚ} {j : Nat}
    (hj : j < firstIdxOf l a) : l.getD j 0 ≠ a := by
  induction l generalizing j with
  | nil => simp [firstIdxOf] at hj
  | cons x xs ih =>
    by_cases hx : x = a
    · simp [firstIdxOf, hx] at hj
    · rw [firstIdxOf] at hj
      simp only [hx, if_false] at hj
      cases j with
      | zero => simpa using hx
      | succ j => simpa using ih (Nat.lt_of_succ_lt_succ hj)

lemma getD_mem_of_lt {l : List ℚ} {j : Nat} (hj : j < l.length) :
    l.getD j 0 ∈ l := by
  induction l generalizing j with
  | nil => cases hj
  | cons x xs ih =>
    cases j with
    | zero => exact List.mem_cons_self _ _
    | succ j =>
      exact List.mem_cons_of_mem _ (ih (Nat.lt_of_succ_lt_succ hj))

/-- The function `npArgmax` returns a valid index of a maximal entry, and every entry
strictly before it is strictly smaller (first-occurrence tie-break). -/
lemma npArgmax_spec (l : List ℚ) (h : l ≠ []) :
    npArgmax l < l.length ∧
    (∀ j, j < l.length → l.getD j 0 ≤ l.getD (npArgmax l) 0) ∧
    (∀ j, j < npArgmax l → l.getD j 0 < l.getD (npArgmax l) 0) := by
  have hmem : listMax l ∈ l := listMax_mem l h
  have hlt : npArgmax l < l.length := firstIdxOf_lt_length hmem
  have hget : l.getD (npArgmax l) 0 = listMax l := getD_firstIdxOf hmem
  refine ⟨hlt, ?_, ?_⟩
  · intro j hj
    rw [hget]
    exact le_listMax (getD_mem_of_lt hj)
  · intro j hj
    have hjlen : j < l.length := lt_trans hj hlt
    have hle : l.getD j 0 ≤ listMax l := le_listMax (getD_mem_of_lt hjlen)
    have hne : l.getD j 0 ≠ listMax l := getD_ne_of_lt_firstIdxOf hj
    rw [hget]
    exact lt_of_le_of_ne hle hne

/-! ## Claim theorems -/

/-- C1: for every model and every non-empty distribution `prediction[0]`
(summing to 1), `predict` returns `class_name = class_names[idx]` and
`confidence = prediction[0][idx]` for one and the same index `idx` into
one and the same distribution, where `idx` is a maximising index and any
tie is broken towards the lowest index (all entries before `idx` are
strictly smaller). -/
theorem predict_argmax_consistent (model : Tensor → List (List ℚ)) (img : Tensor)
    (hne : distOf model img ≠ [])
    (_hsum : (distOf model img).sum = 1) :
    (predict model img).distribution = distOf model img ∧
    ∃ idx, idx < (distOf model img).length ∧
      (predict model img).class_name = class_names.getD idx "" ∧
      (predict model img).confidence = (distOf model img).getD idx 0 ∧
      (∀ j, j < (distOf model img).length →
        (distOf model img).getD j 0 ≤ (distOf model img).getD idx 0) ∧
      (∀ j, j < idx →
        (distOf model img).getD j 0 < (distOf model img).getD idx 0) := by
  obtain ⟨hlt, hmax, hfirst⟩ := npArgmax_spec (distOf model img) hne
  exact ⟨rfl, npArgmax (distOf model img), hlt, rfl, rfl, hmax, hfirst⟩

/-- Witness for C1: the stub classifier `modelEx` returns the
distribution `[1/4, 1/2, 1/4]`, which is non-empty and sums to 1, and
`predict` selects index 1. -/
theorem predict_argmax_consistent_witness :
    distOf modelEx [] ≠ [] ∧ (distOf modelEx []).sum = 1 ∧
    ((predict modelEx []).distribution = distOf modelEx [] ∧
    ∃ idx, idx < (distOf modelEx []).length ∧
      (predict modelEx []).class_name = class_names.getD idx "" ∧
      (predict modelEx []).confidence = (distOf modelEx []).getD idx 0 ∧
      (∀ j, j < (distOf modelEx []).length →
        (distOf modelEx []).getD j 0 ≤ (distOf modelEx []).getD idx 0) ∧
      (∀ j, j < idx →
        (distOf modelEx []).getD j 0 < (distOf modelEx []).getD idx 0)) :=
  ⟨by simp [distOf, modelEx], by norm_num [distOf, modelEx],
   predict_argmax_consistent modelEx []
     (by simp [distOf, modelEx]) (by norm_num [distOf, modelEx])⟩

/-- C3 counterexample: the label set `class_names` has length 50, not 49
as the claim states. -/
theorem class_names_length_ne_49 :
    class_names.length = 50 ∧ class_names.length ≠ 49 := by decide

/-- C3 (amended): the label set `class_names` has length exactly 50. -/
theorem class_names_length : class_names.length = 50 := by decide

/-- C9: for every class name absent from the description table, the
lookup returns the fixed fallback string and never an empty result. -/
theorem describe_missing_fallback (name : String)
    (h : ∀ kv ∈ class_info, kv.1 ≠ name) :
    describe name = "No description available." ∧ describe name ≠ "" := by
  have h1 : (name == "Ignition Coil") = false := by
    have := (h _ (by simp [class_info] : ("Ignition Coil", "Description of Ignition Coil.") ∈ class_info)).symm
    simpa using this
  have h2 : (name == "Leaf Spring") = false := by
    have := (h _ (by simp [class_info] : ("Leaf Spring", "Description of Leaf Spring.") ∈ class_info)).symm
    simpa using this
  refine ⟨?_, ?_⟩ <;> simp [describe, dict_get, class_info, List.lookup, h1, h2]

/-- Witness for C9: "BATTERY" is not a key of the table, and its lookup
returns the fallback. -/
theorem describe_missing_fallback_witness :
    (∀ kv ∈ class_info, kv.1 ≠ "BATTERY") ∧
    (describe "BATTERY" = "No description available." ∧ describe "BATTERY" ≠ "") :=
  ⟨by decide, describe_missing_fallback "BATTERY" (by decide)⟩

/-- C10: every element of `class_names` is free of lowercase letters,
and the description lookup on it returns the fallback string — the two
title-cased keys of `class_info` match no label, so no reachable
prediction receives table-provided text. -/
theorem describe_class_names_fallback (name : String) (h : name ∈ class_names) :
    (∀ c ∈ name.data, c.isLower = false) ∧
    describe name = "No description available." := by
  revert h
  revert name
  have : ∀ name ∈ class_names,
      (∀ c ∈ name.data, c.isLower = false) ∧
      describe name = "No description available." := by
    set_option maxRecDepth 4000 in decide
  exact this

/-- Witness for C10: the first label. -/
theorem describe_class_names_fallback_witness :
    "AIR COMPRESSOR" ∈ class_names ∧
    ((∀ c ∈ ("AIR COMPRESSOR" : String).data, c.isLower = false) ∧
    describe "AIR COMPRESSOR" = "No description available.") :=
  ⟨by decide, describe_class_names_fallback "AIR COMPRESSOR" (by decide)⟩

end CarParts

namespace CarParts

lemma open_webcam_from_some (opens : Nat → Bool) :
    ∀ n idx j, open_webcam_from opens idx n = some j ↔
      (idx ≤ j ∧ j < idx + n ∧ opens j = true ∧
       ∀ i, idx ≤ i → i < j → opens i = false) := by
  intro n
  induction n with
  | zero =>
    intro idx j
    constructor
    · intro h; simp [open_webcam_from] at h
    · rintro ⟨h1, h2, -, -⟩; exact absurd (lt_of_le_of_lt h1 h2) (by omega)
  | succ n ih =>
    intro idx j
    by_cases h : opens idx = true
    · simp only [open_webcam_from, h, if_true, Option.some_inj]
      constructor
      · rintro rfl
        exact ⟨le_refl _, by omega, h,
          fun i hi1 hi2 => absurd (lt_of_le_of_lt hi1 hi2) (by omega)⟩
      · rintro ⟨h1, h2, h3, h4⟩
        by_contra hne
        have hlt : idx < j := lt_of_le_of_ne h1 hne
        have := h4 idx (le_refl _) hlt
        rw [h] at this
        cases this
    · have hfalse : opens idx = false := by
        cases hop : opens idx
        · rfl
        · exact absurd hop h
      simp only [open_webcam_from, hfalse, Bool.false_eq_true, if_false]
      rw [ih (idx + 1) j]
      constructor
      · rintro ⟨h1, h2, h3, h4⟩
        refine ⟨by omega, by omega, h3, ?_⟩
        intro i hi1 hi2
        rcases Nat.eq_or_lt_of_le hi1 with rfl | hlt
        · exact hfalse
        · exact h4 i hlt hi2
      · rintro ⟨h1, h2, h3, h4⟩
        have hne : j ≠ idx := by
          rintro rfl
          rw [h3] at hfalse
          cases hfalse
        refine ⟨by omega, by omega, h3, ?_⟩
        intro i hi1 hi2
        exact h4 i (by omega) hi2

lemma open_webcam_from_none (opens : Nat → Bool) :
    ∀ n idx, open_webcam_from opens idx n = none ↔
      ∀ i, idx ≤ i → i < idx + n → opens i = false := by
  intro n
  induction n with
  | zero =>
    intro idx
    show (none : Option Nat) = none ↔ _
    exact ⟨fun _ i h1 h2 => absurd (lt_of_le_of_lt h1 h2) (by omega), fun _ => rfl⟩
  | succ n ih =>
    intro idx
    by_cases h : opens idx = true
    · simp only [open_webcam_from, h, if_true]
      constructor
      · intro hsome; cases hsome
      · intro hall
        have := hall idx (le_refl _) (by omega)
        rw [h] at this
        cases this
    · have hfalse : opens idx = false := by
        cases hop : opens idx
        · rfl
        · exact absurd hop h
      simp only [open_webcam_from, hfalse, Bool.false_eq_true, if_false]
      rw [ih (idx + 1)]
      constructor
      · intro hall i hi1 hi2
        rcases Nat.eq_or_lt_of_le hi1 with rfl | hlt
        · exact hfalse
        · exact hall i hlt (by omega)
      · intro hall i hi1 hi2
        exact hall i (by omega) (by omega)

/-- C4: calling the cached model loader a second time in the same
process returns the identical handle as the first call, and across both
calls at most one download and at most one deserialization are
performed, whatever the starting state and environment. -/
theorem load_model_idempotent (env : LoaderEnv) (s : LoaderState) :
    (load_model env (load_model env s).2).1 = (load_model env s).1 ∧
    (load_model env (load_model env s).2).2.downloads ≤ s.downloads + 1 ∧
    (load_model env (load_model env s).2).2.loads ≤ s.loads + 1 := by
  rcases env with ⟨dok, lok⟩
  rcases s with ⟨d, f, c, dl, ld⟩
  cases c <;> cases dok <;> cases lok <;> cases d <;> cases f <;>
    simp [load_model, load_model_body, tf_load]

/-- C7: when loading fails for any reason — the artifact is absent and
the download fails, or deserialization fails on a missing, corrupt or
incompatible artifact — `load_model` returns the sentinel `none` instead
of propagating the exception, and the guard in the caller renders the
recoverable error message and halts. -/
theorem load_failure_sentinel (env : LoaderEnv) (s : LoaderState)
    (hc : s.cache = none)
    (hfail : (s.fileExists = false ∧ env.downloadOk = false) ∨ env.loadOk = false) :
    (load_model env s).1 = none ∧
    main_model_gate (load_model env s).1 =
      MainOutcome.errorHalt "Failed to load model. Please refresh the page." := by
  rcases env with ⟨dok, lok⟩
  rcases s with ⟨d, f, c, dl, ld⟩
  subst hc
  rcases hfail with ⟨hf, hd⟩ | hl
  · subst hf; subst hd
    cases d <;> simp [load_model, load_model_body, tf_load, main_model_gate]
  · subst hl
    cases d <;> cases f <;> cases dok <;>
      simp [load_model, load_model_body, tf_load, main_model_gate]

/-- Witness for C7: fresh process state, missing file, failing download. -/
theorem load_failure_sentinel_witness :
    ((⟨false, false, none, 0, 0⟩ : LoaderState).cache = none) ∧
    ((((⟨false, false, none, 0, 0⟩ : LoaderState).fileExists = false) ∧
      ((⟨false, true⟩ : LoaderEnv).downloadOk = false)) ∨
      (⟨false, true⟩ : LoaderEnv).loadOk = false) ∧
    ((load_model ⟨false, true⟩ ⟨false, false, none, 0, 0⟩).1 = none ∧
     main_model_gate (load_model ⟨false, true⟩ ⟨false, false, none, 0, 0⟩).1 =
       MainOutcome.errorHalt "Failed to load model. Please refresh the page.") :=
  ⟨rfl, Or.inl ⟨rfl, rfl⟩,
   load_failure_sentinel ⟨false, true⟩ ⟨false, false, none, 0, 0⟩ rfl (Or.inl ⟨rfl, rfl⟩)⟩

/-- C5: on every exit of the webcam loop — stop, stream exhaustion, or
an inference error raised mid-loop — the camera handle is released. -/
theorem webcam_release_on_exit (fuel : Nat) (stopBtn : Bool)
    (frames : Nat → Option RawImage) (inferFails : Nat → Bool)
    (h : (run_webcam fuel stopBtn frames inferFails).exit = LoopExit.stopped ∨
         (run_webcam fuel stopBtn frames inferFails).exit = LoopExit.exhausted ∨
         (run_webcam fuel stopBtn frames inferFails).exit = LoopExit.inferenceError) :
    (run_webcam fuel stopBtn frames inferFails).released = true := by
  dsimp only [run_webcam] at h ⊢
  rcases h with h | h | h <;> rw [h] <;> rfl

/-- Witness for C5: the loop stops immediately when the pre-sampled stop
flag is set, and the camera is released. -/
theorem webcam_release_on_exit_witness :
    ((run_webcam 1 true (fun _ => none) (fun _ => false)).exit = LoopExit.stopped ∨
     (run_webcam 1 true (fun _ => none) (fun _ => false)).exit = LoopExit.exhausted ∨
     (run_webcam 1 true (fun _ => none) (fun _ => false)).exit = LoopExit.inferenceError) ∧
    (run_webcam 1 true (fun _ => none) (fun _ => false)).released = true :=
  ⟨Or.inl (by decide),
   webcam_release_on_exit 1 true (fun _ => none) (fun _ => false) (Or.inl (by decide))⟩

/-- C6 counterexample: the stop signal is sampled only once, before the
loop.  Against a user who issues the stop request at iteration 1, the
five-iteration run still displays the frame of iteration 3 (more than
one frame interval after the stop request) and has not released the
camera. -/
theorem webcam_stop_midloop_missed :
    userStopEx 0 = false ∧ userStopEx 1 = true ∧
    3 ∈ runEx.displayed ∧ runEx.released = false := by decide

/-- C6 (amended): the stop flag is read once, before the loop starts; a
stop request already issued at that point stops the loop before any
frame is produced and releases the camera immediately, while a stop
request issued after the loop has started is never observed by the loop
itself. -/
theorem webcam_stop_before_loop (fuel : Nat) (frames : Nat → Option RawImage)
    (inferFails : Nat → Bool) (h : 0 < fuel) :
    run_webcam fuel true frames inferFails =
      ⟨LoopExit.stopped, [], true⟩ := by
  cases fuel with
  | zero => exact absurd h (lt_irrefl 0)
  | succ n => rfl

/-- Witness for C6 (amended): one unit of fuel. -/
theorem webcam_stop_before_loop_witness :
    0 < 1 ∧ run_webcam 1 true (fun _ => none) (fun _ => false) =
      ⟨LoopExit.stopped, [], true⟩ :=
  ⟨Nat.zero_lt_one,
   webcam_stop_before_loop 1 (fun _ => none) (fun _ => false) Nat.zero_lt_one⟩

/-- C8: `get_webcam` probes device indices 0, 1, 2, 3 in that order and
binds the first that opens; if none of the four opens it returns the
sentinel `none`, on which the webcam branch of `main` halts with the
no-webcam error; the upload branch is unaffected by which devices open. -/
theorem get_webcam_probe_order (opens : Nat → Bool)
    (model : Tensor → List (List ℚ)) (file : Option RawImage) :
    (∀ j, get_webcam opens = some j ↔
      (j < 4 ∧ opens j = true ∧ ∀ i, i < j → opens i = false)) ∧
    (get_webcam opens = none ↔ ∀ i, i < 4 → opens i = false) ∧
    (get_webcam opens = none →
      main_branch InputMethod.webcam opens model file = BranchResult.webcamError
        "No webcam found. Please ensure it\x27s connected and permissions are granted.") ∧
    (∀ opens2, main_branch InputMethod.uploadImage opens model file =
      main_branch InputMethod.uploadImage opens2 model file) := by
  refine ⟨?_, ?_, ?_, ?_⟩
  · intro j
    rw [show get_webcam opens = open_webcam_from opens 0 4 from rfl,
      open_webcam_from_some]
    constructor
    · rintro ⟨-, h2, h3, h4⟩
      exact ⟨by omega, h3, fun i hi => h4 i (by omega) hi⟩
    · rintro ⟨h1, h2, h3⟩
      exact ⟨by omega, by omega, h2, fun i _ hi => h3 i hi⟩
  · rw [show get_webcam opens = open_webcam_from opens 0 4 from rfl,
      open_webcam_from_none]
    constructor
    · intro h i hi
      exact h i (by omega) (by omega)
    · intro h i _ hi
      exact h i (by omega)
  · intro h
    simp [main_branch, h]
  · intro opens2
    rfl

/-- Witness for C8: in an environment where only index 2 opens,
`get_webcam` binds device 2. -/
theorem get_webcam_probe_order_witness :
    get_webcam opensEx = some 2 :=
  ((get_webcam_probe_order opensEx (fun _ => []) none).1 2).mpr
    ⟨by decide, by decide, by decide⟩

end CarParts

namespace CarParts

lemma interpT_nonneg (inSize i : Nat) : 0 ≤ interpT inSize i := by
  unfold interpT
  exact sub_nonneg.mpr (Int.floor_le _)

lemma interpT_le_one (inSize i : Nat) : interpT inSize i ≤ 1 := by
  unfold interpT
  have := Int.lt_floor_add_one (srcCoord inSize i)
  linarith

lemma lerp_bounds {t a b : ℚ} (ht0 : 0 ≤ t) (ht1 : t ≤ 1)
    (ha0 : 0 ≤ a) (ha1 : a ≤ 255) (hb0 : 0 ≤ b) (hb1 : b ≤ 255) :
    0 ≤ lerp t a b ∧ lerp t a b ≤ 255 := by
  unfold lerp
  constructor
  · nlinarith
  · nlinarith

lemma lerp3_bounds {t : ℚ} {a b : ℚ × ℚ × ℚ} (ht0 : 0 ≤ t) (ht1 : t ≤ 1)
    (ha : (0 ≤ a.1 ∧ a.1 ≤ 255) ∧ (0 ≤ a.2.1 ∧ a.2.1 ≤ 255) ∧
          (0 ≤ a.2.2 ∧ a.2.2 ≤ 255))
    (hb : (0 ≤ b.1 ∧ b.1 ≤ 255) ∧ (0 ≤ b.2.1 ∧ b.2.1 ≤ 255) ∧
          (0 ≤ b.2.2 ∧ b.2.2 ≤ 255)) :
    (0 ≤ (lerp3 t a b).1 ∧ (lerp3 t a b).1 ≤ 255) ∧
    (0 ≤ (lerp3 t a b).2.1 ∧ (lerp3 t a b).2.1 ≤ 255) ∧
    (0 ≤ (lerp3 t a b).2.2 ∧ (lerp3 t a b).2.2 ≤ 255) := by
  obtain ⟨ha1, ha2, ha3⟩ := ha
  obtain ⟨hb1, hb2, hb3⟩ := hb
  exact ⟨lerp_bounds ht0 ht1 ha1.1 ha1.2 hb1.1 hb1.2,
         lerp_bounds ht0 ht1 ha2.1 ha2.2 hb2.1 hb2.2,
         lerp_bounds ht0 ht1 ha3.1 ha3.2 hb3.1 hb3.2⟩

lemma getD_mem_or_default {α : Type} (l : List α) (n : Nat) (d : α) :
    l.getD n d ∈ l ∨ l.getD n d = d := by
  induction l generalizing n with
  | nil => exact Or.inr (by simp)
  | cons a l ih =>
    cases n with
    | zero => exact Or.inl (List.mem_cons_self _ _)
    | succ n =>
      rcases ih n with h | h
      · exact Or.inl (List.mem_cons_of_mem _ (by simpa using h))
      · exact Or.inr (by simpa using h)

lemma pixAt_le {img : RawImage} (hb : boundedImage img) (y x : Nat) :
    (pixAt img y x).1 ≤ 255 ∧ (pixAt img y x).2.1 ≤ 255 ∧
    (pixAt img y x).2.2 ≤ 255 := by
  unfold pixAt
  rcases getD_mem_or_default img y [] with hrow | hrow
  · rcases getD_mem_or_default (img.getD y []) x (0, 0, 0) with hp | hp
    · exact hb _ hrow _ hp
    · rw [hp]
      exact ⟨by norm_num, by norm_num, by norm_num⟩
  · rw [hrow]
    simp

lemma toQ3_bounds {p : Nat × Nat × Nat}
    (h : p.1 ≤ 255 ∧ p.2.1 ≤ 255 ∧ p.2.2 ≤ 255) :
    (0 ≤ (toQ3 p).1 ∧ (toQ3 p).1 ≤ 255) ∧
    (0 ≤ (toQ3 p).2.1 ∧ (toQ3 p).2.1 ≤ 255) ∧
    (0 ≤ (toQ3 p).2.2 ∧ (toQ3 p).2.2 ≤ 255) := by
  unfold toQ3
  dsimp only
  refine ⟨⟨by positivity, ?_⟩, ⟨by positivity, ?_⟩, ⟨by positivity, ?_⟩⟩
  · exact_mod_cast h.1
  · exact_mod_cast h.2.1
  · exact_mod_cast h.2.2

lemma cvtColor_bounded {img : RawImage} (hb : boundedImage img) :
    boundedImage (cvtColor_BGR2RGB img) := by
  intro row hrow p hp
  unfold cvtColor_BGR2RGB at hrow
  rcases List.mem_map.mp hrow with ⟨row0, hrow0, rfl⟩
  rcases List.mem_map.mp hp with ⟨p0, hp0, rfl⟩
  obtain ⟨h1, h2, h3⟩ := hb row0 hrow0 p0 hp0
  exact ⟨h3, h2, h1⟩

lemma resizePixel_bounds {img : RawImage} (hb : boundedImage img)
    (h w i j : Nat) :
    (0 ≤ (resizePixel img h w i j).1 ∧ (resizePixel img h w i j).1 ≤ 255) ∧
    (0 ≤ (resizePixel img h w i j).2.1 ∧ (resizePixel img h w i j).2.1 ≤ 255) ∧
    (0 ≤ (resizePixel img h w i j).2.2 ∧ (resizePixel img h w i j).2.2 ≤ 255) := by
  unfold resizePixel
  exact lerp3_bounds (interpT_nonneg h i) (interpT_le_one h i)
    (lerp3_bounds (interpT_nonneg w j) (interpT_le_one w j)
      (toQ3_bounds (pixAt_le hb _ _)) (toQ3_bounds (pixAt_le hb _ _)))
    (lerp3_bounds (interpT_nonneg w j) (interpT_le_one w j)
      (toQ3_bounds (pixAt_le hb _ _)) (toQ3_bounds (pixAt_le hb _ _)))

lemma div255_bounds {v : ℚ} (h0 : 0 ≤ v) (h255 : v ≤ 255) :
    0 ≤ v / 255 ∧ v / 255 ≤ 1 := by
  constructor
  · positivity
  · rw [div_le_one (by norm_num : (0:ℚ) < 255)]
    exact h255

/-- C2: for every valid input image (non-empty rectangular grid of
3-channel integer pixels with values 0–255), `preprocess_image` yields a
tensor of shape (1, 224, 224, 3) with every element in [0, 1]. -/
theorem preprocess_shape_range (img : RawImage) (hv : validImage img) :
    (preprocess_image img).length = 1 ∧
    ∀ batch ∈ preprocess_image img, batch.length = 224 ∧
      ∀ row ∈ batch, row.length = 224 ∧
        ∀ px ∈ row, px.length = 3 ∧
          ∀ v ∈ px, 0 ≤ v ∧ v ≤ 1 := by
  have hb : boundedImage (cvtColor_BGR2RGB img) := cvtColor_bounded hv.2.2.2
  constructor
  · rfl
  · intro batch hbatch
    rw [List.mem_singleton.mp hbatch]
    constructor
    · simp
    · intro row hrow
      rcases List.mem_map.mp hrow with ⟨i, hi, rfl⟩
      constructor
      · simp
      · intro px hpx
        rcases List.mem_map.mp hpx with ⟨j, hj, rfl⟩
        constructor
        · rfl
        · intro v hvmem
          obtain ⟨hc1, hc2, hc3⟩ := resizePixel_bounds hb
            (cvtColor_BGR2RGB img).length ((cvtColor_BGR2RGB img).getD 0 []).length i j
          rcases List.mem_cons.mp hvmem with rfl | hvmem
          · exact div255_bounds hc1.1 hc1.2
          rcases List.mem_cons.mp hvmem with rfl | hvmem
          · exact div255_bounds hc2.1 hc2.2
          rcases List.mem_cons.mp hvmem with rfl | hvmem
          · exact div255_bounds hc3.1 hc3.2
          · cases hvmem

/-- Witness for C2: a valid 1×1 black image. -/
theorem preprocess_shape_range_witness :
    validImage imgEx ∧
    ((preprocess_image imgEx).length = 1 ∧
    ∀ batch ∈ preprocess_image imgEx, batch.length = 224 ∧
      ∀ row ∈ batch, row.length = 224 ∧
        ∀ px ∈ row, px.length = 3 ∧
          ∀ v ∈ px, 0 ≤ v ∧ v ≤ 1) :=
  ⟨by unfold validImage boundedImage; decide,
   preprocess_shape_range imgEx (by unfold validImage boundedImage; decide)⟩

end CarParts
